import Mathlib

set_option maxHeartbeats 1000000

/-!
Shallow embedding of `lib/bios_manager.py`: the BIOS catalog, path resolver,
MD5 verifier, single-file fetcher, and the two batch operations
(`download_all_bios`, `install_bios_to_sd`).

The filesystem is modelled as a map from path strings to byte lists; the
network is an oracle from URLs to transport outcomes; the MD5 hexdigest is an
abstract function from byte lists to strings (the real digest is a fixed such
function whose output is lowercase hex).  Progress-callback invocations and
network requests are recorded as explicit traces so that the batch functions'
observable behaviour can be stated.
-/

/-- File contents: a list of byte values. -/
abbrev Bytes := List Nat

/-- The filesystem: a map from path strings to file contents. -/
def FS : Type := String → Option Bytes

/-- Writing a file (`open(dest, "wb")` followed by writing all chunks). -/
def FS.write (fs : FS) (p : String) (c : Bytes) : FS :=
  fun q => if q = p then some c else fs q

/-- `Path.unlink`: removing a file. -/
def FS.erase (fs : FS) (p : String) : FS :=
  fun q => if q = p then none else fs q

/-- `Path.is_file()`. -/
def FS.isFile (fs : FS) (p : String) : Bool :=
  (fs p).isSome

/-- The empty filesystem. -/
def emptyFS : FS := fun _ => none

/-- Build a filesystem from a finite list of (path, contents) pairs. -/
def FS.ofList (l : List (String × Bytes)) : FS :=
  fun p => (l.find? (fun q => q.1 == p)).map (·.2)

/-- One entry of `BIOS_FILES` (the keys of each Python dict literal). -/
structure BiosEntry where
  filename : String
  system : String
  md5 : String
  required : Bool
  subdir : String
  extra_copies : List String
  notes : String
deriving DecidableEq

/-- `_SYSTEM_TO_REPO_PATH`: maps system name to the repo subdirectory path. -/
def SYSTEM_TO_REPO_PATH : List (String × String) :=
  [ ("PlayStation", "Sony - PlayStation/"),
    ("Neo Geo", "Arcade/"),
    ("Sega CD", "Sega - Mega CD - Sega CD/"),
    ("TurboGrafx-CD", "NEC - PC Engine - TurboGrafx 16 - SuperGrafx/"),
    ("Saturn", "Sega - Saturn/"),
    ("GBA", "Nintendo - Game Boy Advance/"),
    ("GB", "Nintendo - Gameboy/"),
    ("GBC", "Nintendo - Gameboy Color/"),
    ("Neo Geo CD", "SNK - NeoGeo CD/") ]

/-- `_SYSTEM_TO_REPO_PATH.get(system, "")`. -/
def repoPathFor (system : String) : String :=
  ((SYSTEM_TO_REPO_PATH.find? (fun q => q.1 == system)).map (·.2)).getD ""

/-- `BIOS_FILES`: the static catalog. -/
def BIOS_FILES : List BiosEntry :=
  [ { filename := "scph1001.bin", system := "PlayStation",
      md5 := "924e392ed05558ffdb115408c263dccf", required := true,
      subdir := "", extra_copies := [], notes := "PS1 BIOS (North America)" },
    { filename := "scph5500.bin", system := "PlayStation",
      md5 := "8dd7d5296a650fac7319bce665a6a53c", required := true,
      subdir := "", extra_copies := [], notes := "PS1 BIOS (Japan)" },
    { filename := "scph5501.bin", system := "PlayStation",
      md5 := "490f666e1afb15b7362b406ed1cea246", required := true,
      subdir := "", extra_copies := [], notes := "PS1 BIOS (North America)" },
    { filename := "scph5502.bin", system := "PlayStation",
      md5 := "32736f17079d0b2b7024407c39bd3050", required := true,
      subdir := "", extra_copies := [], notes := "PS1 BIOS (Europe)" },
    { filename := "neogeo.zip", system := "Neo Geo",
      md5 := "", required := true,
      subdir := "", extra_copies := ["Roms/NEOGEO/neogeo.zip"],
      notes := "Neo Geo BIOS (also needed in Roms/NEOGEO/)" },
    { filename := "bios_CD_U.bin", system := "Sega CD",
      md5 := "2efd74e3232ff260e371b99f84024f7f", required := true,
      subdir := "", extra_copies := [], notes := "Sega CD BIOS (North America)" },
    { filename := "bios_CD_E.bin", system := "Sega CD",
      md5 := "e66fa1dc5820d254611fdcdba0662372", required := true,
      subdir := "", extra_copies := [], notes := "Sega CD BIOS (Europe)" },
    { filename := "bios_CD_J.bin", system := "Sega CD",
      md5 := "278a9397d192149e84e820ac621a8edd", required := true,
      subdir := "", extra_copies := [], notes := "Sega CD BIOS (Japan)" },
    { filename := "syscard3.pce", system := "TurboGrafx-CD",
      md5 := "38179df8f4ac870017db21ebcbf53114", required := true,
      subdir := "", extra_copies := [],
      notes := "TurboGrafx-CD / PC Engine CD System Card 3" },
    { filename := "mpr-17933.bin", system := "Saturn",
      md5 := "3240872c70984b6cbfda1586cab68dbe", required := true,
      subdir := "", extra_copies := [], notes := "Sega Saturn BIOS (Europe)" },
    { filename := "gba_bios.bin", system := "GBA",
      md5 := "a860e8c0b6d573d191e4ec7db1b1e4f6", required := false,
      subdir := "", extra_copies := [],
      notes := "Game Boy Advance BIOS (optional, HLE available)" },
    { filename := "gb_bios.bin", system := "GB",
      md5 := "32fbbd84168d3482956eb3c5051637f5", required := false,
      subdir := "", extra_copies := [], notes := "Game Boy BIOS (optional)" },
    { filename := "gbc_bios.bin", system := "GBC",
      md5 := "dbfce9db9deaa2567f6a84fde55f9680", required := false,
      subdir := "", extra_copies := [], notes := "Game Boy Color BIOS (optional)" },
    { filename := "neocd_f.rom", system := "Neo Geo CD",
      md5 := "", required := false,
      subdir := "neocd", extra_copies := [],
      notes := "Neo Geo CD front loader BIOS" },
    { filename := "000-lo.lo", system := "Neo Geo CD",
      md5 := "", required := false,
      subdir := "neocd", extra_copies := [],
      notes := "Neo Geo CD load order file" } ]

/-- One hex digit, uppercase, as produced by Python's percent-encoding. -/
def hexUpper (n : Nat) : Char :=
  if n < 10 then Char.ofNat (48 + n) else Char.ofNat (55 + n)

/-- `urllib.parse.quote` on one (ASCII) character with `safe="/"`. -/
def quoteChar (c : Char) : List Char :=
  if c.isAlphanum || c = '_' || c = '.' || c = '-' || c = '~' || c = '/' then [c]
  else ['%', hexUpper (c.toNat / 16), hexUpper (c.toNat % 16)]

/-- `urllib.parse.quote(s, safe="/")` on ASCII input. -/
def quote (s : String) : String :=
  ⟨s.data.foldr (fun c acc => quoteChar c ++ acc) []⟩

/-- `_BASE_RAW_URL`. -/
def BASE_RAW_URL : String :=
  "https://raw.githubusercontent.com/Abdess/retroarch_system/libretro/"

/-- `_build_download_url`. -/
def build_download_url (e : BiosEntry) : String :=
  BASE_RAW_URL ++ quote (repoPathFor e.system ++ e.filename)

/-- The cache-relative path of an entry: `[subdir/]filename`. -/
def relPath (e : BiosEntry) : String :=
  if e.subdir = "" then e.filename else e.subdir ++ "/" ++ e.filename

/-- `_cache_path_for`: `cache_dir/[subdir/]filename`. -/
def cache_path_for (e : BiosEntry) (cache_dir : String) : String :=
  cache_dir ++ "/" ++ relPath e

/-- `str.lower()` on one ASCII character. -/
def charLower (c : Char) : Char :=
  if 65 ≤ c.toNat && c.toNat ≤ 90 then Char.ofNat (c.toNat + 32) else c

/-- `str.lower()` (all strings involved are ASCII). -/
def strLower (s : String) : String :=
  ⟨s.data.map charLower⟩

/-- `verify_md5(file_path, expected_md5)`.  `digest` stands for streaming the
file through `hashlib.md5` and taking `hexdigest()`.  `none` models the
`FileNotFoundError` raised by `open` when the file is absent (only reachable
when `expected_md5` is non-empty, since the empty sentinel returns early). -/
def verify_md5 (digest : Bytes → String) (fs : FS) (file_path : String)
    (expected_md5 : String) : Option Bool :=
  if expected_md5 = "" then
    some true
  else
    match fs file_path with
    | none => none
    | some content => some (digest content == strLower expected_md5)

/-- Outcome of one `urlopen`/read/write attempt against a URL.  The
`connect` variants are raised by `urlopen` itself, before `open(dest, "wb")`
runs, so no file is touched; the `read`/`write` variants occur after the
destination file was opened and `written` bytes were stored. -/
inductive NetOutcome where
  | ok (body : Bytes)
  | connectHttpError (code : Nat) (reason : String)
  | connectUrlError (reason : String)
  | readUrlError (written : Bytes) (reason : String)
  | readTimeout (written : Bytes)
  | writeOsError (written : Bytes) (exc : String)
deriving DecidableEq

/-- Whether the outcome is one of the transport failures (not a full body). -/
def NetOutcome.isTransportError : NetOutcome → Bool
  | .ok _ => false
  | _ => true

/-- The error message the corresponding `except` clause formats. -/
def NetOutcome.transportMsg : NetOutcome → String → String
  | .ok _, _ => ""
  | .connectHttpError code reason, f =>
      "HTTP " ++ toString code ++ " downloading " ++ f ++ ": " ++ reason
  | .connectUrlError reason, f =>
      "Network error downloading " ++ f ++ ": " ++ reason
  | .readUrlError _ reason, f =>
      "Network error downloading " ++ f ++ ": " ++ reason
  | .readTimeout _, f => "Timeout downloading " ++ f
  | .writeOsError _ exc, f => "File error saving " ++ f ++ ": " ++ exc

/-- The filesystem state a transport failure leaves behind: untouched for
connect-time failures, the partial bytes at `dest` otherwise. -/
def NetOutcome.partialFs : NetOutcome → FS → String → FS
  | .ok _, fs, _ => fs
  | .connectHttpError _ _, fs, _ => fs
  | .connectUrlError _, fs, _ => fs
  | .readUrlError w _, fs, dest => FS.write fs dest w
  | .readTimeout w, fs, dest => FS.write fs dest w
  | .writeOsError w _, fs, dest => FS.write fs dest w

/-- `download_bios_file(bios_entry, cache_dir)`: returns
`some ((success, message), fs)` for a normal return, `none` for an uncaught
exception (unreachable, since the verify step always finds the fresh file). -/
def download_bios_file (digest : Bytes → String) (net : String → NetOutcome)
    (e : BiosEntry) (cache_dir : String) (fs : FS) :
    Option ((Bool × String) × FS) :=
  match net (build_download_url e) with
  | .connectHttpError code reason =>
      some ((false, "HTTP " ++ toString code ++ " downloading " ++ e.filename
        ++ ": " ++ reason), fs)
  | .connectUrlError reason =>
      some ((false, "Network error downloading " ++ e.filename ++ ": "
        ++ reason), fs)
  | .readUrlError w reason =>
      some ((false, "Network error downloading " ++ e.filename ++ ": "
        ++ reason), FS.write fs (cache_path_for e cache_dir) w)
  | .readTimeout w =>
      some ((false, "Timeout downloading " ++ e.filename),
        FS.write fs (cache_path_for e cache_dir) w)
  | .writeOsError w exc =>
      some ((false, "File error saving " ++ e.filename ++ ": " ++ exc),
        FS.write fs (cache_path_for e cache_dir) w)
  | .ok body =>
      match verify_md5 digest (FS.write fs (cache_path_for e cache_dir) body)
          (cache_path_for e cache_dir) e.md5 with
      | none => none
      | some true =>
          some ((true, "Downloaded " ++ e.filename),
            FS.write fs (cache_path_for e cache_dir) body)
      | some false =>
          some ((false, "MD5 verification failed for " ++ e.filename),
            FS.erase (FS.write fs (cache_path_for e cache_dir) body)
              (cache_path_for e cache_dir))

/-- State accumulated by the `download_all_bios` loop over the remaining
entries: the two result lists, the filesystem, the batch-progress invocations
`(fraction, status_text)` in order, and the URLs requested via `urlopen`. -/
structure DlState where
  succeeded : List String
  failed : List String
  fs : FS
  trace : List (Rat × String)
  requests : List String

/-- The progress fraction `idx / max(total, 1)`. -/
def fracOf (idx total : Nat) : Rat :=
  (idx : Rat) / ((max total 1 : Nat) : Rat)

/-- `[e for e in BIOS_FILES if not required_only or e["required"]]`. -/
def biosFilter (required_only : Bool) : List BiosEntry :=
  BIOS_FILES.filter (fun e => !required_only || e.required)

/-- The body of the `download_all_bios` loop, over the remaining entries,
starting at absolute index `idx` out of `total`.  Results for the remaining
entries are returned directly (list order equals processing order). -/
def dlLoop (digest : Bytes → String) (net : String → NetOutcome)
    (cache_dir : String) (skip_cached : Bool) (total : Nat) :
    List BiosEntry → Nat → FS → Option DlState
  | [], _, fs => some ⟨[], [], fs, [], []⟩
  | e :: es, idx, fs =>
    if skip_cached && FS.isFile fs (cache_path_for e cache_dir)
        && (verify_md5 digest fs (cache_path_for e cache_dir) e.md5
            == some true) then
      (dlLoop digest net cache_dir skip_cached total es (idx + 1) fs).map
        (fun r => ⟨e.filename :: r.succeeded, r.failed, r.fs,
          (fracOf idx total, "Cached: " ++ e.filename) :: r.trace,
          r.requests⟩)
    else
      match download_bios_file digest net e cache_dir fs with
      | none => none
      | some ((ok, msg), fs1) =>
        (dlLoop digest net cache_dir skip_cached total es (idx + 1) fs1).map
          (fun r =>
            if ok then
              ⟨e.filename :: r.succeeded, r.failed, r.fs,
                (fracOf idx total, "Downloading: " ++ e.filename) :: r.trace,
                build_download_url e :: r.requests⟩
            else
              ⟨r.succeeded, (e.filename ++ ": " ++ msg) :: r.failed, r.fs,
                (fracOf idx total, "Downloading: " ++ e.filename) :: r.trace,
                build_download_url e :: r.requests⟩)

/-- Result of a whole batch call. -/
structure DlResult where
  allOk : Bool
  succeeded : List String
  failed : List String
  fs : FS
  trace : List (Rat × String)
  requests : List String

/-- `download_all_bios(cache_dir, progress_cb, skip_cached, required_only)`.
The `none` branch models an uncaught exception escaping the loop; it is
proved unreachable below (`dlLoop_isSome`). -/
def download_all_bios (digest : Bytes → String) (net : String → NetOutcome)
    (cache_dir : String) (skip_cached required_only : Bool) (fs : FS) :
    DlResult :=
  match dlLoop digest net cache_dir skip_cached
      (biosFilter required_only).length (biosFilter required_only) 0 fs with
  | none => ⟨false, [], [], fs, [], []⟩
  | some r =>
      ⟨r.failed.isEmpty, r.succeeded, r.failed, r.fs,
        r.trace ++ [((1 : Rat), "Download complete")], r.requests⟩

/-- The primary install destination: `sd_mount/BIOS/[subdir/]filename`. -/
def primaryDest (e : BiosEntry) (sd_mount : String) : String :=
  if e.subdir = "" then sd_mount ++ "/BIOS/" ++ e.filename
  else sd_mount ++ "/BIOS/" ++ e.subdir ++ "/" ++ e.filename

/-- All destination paths one entry is copied to: the primary followed by
each extra-copy target resolved against the SD root. -/
def installTargets (e : BiosEntry) (sd_mount : String) : List String :=
  primaryDest e sd_mount :: e.extra_copies.map (fun x => sd_mount ++ "/" ++ x)

/-- The sequence of `shutil.copy2(src, t)` calls of one entry's `try` block.
`copyErr t` models an `OSError` raised while creating `t`'s parent directory
or copying to `t` (its message); each copy re-reads `src`.  Returns the error
that aborted the block, if any, and the filesystem reached. -/
def installCopies (copyErr : String → Option String) (src : String) :
    List String → FS → Option String × FS
  | [], fs => (none, fs)
  | t :: ts, fs =>
    match copyErr t with
    | some exc => (some exc, fs)
    | none =>
      match fs src with
      | some c => installCopies copyErr src ts (FS.write fs t c)
      | none => (some "No such file or directory", fs)

/-- State accumulated by the `install_bios_to_sd` loop (no network). -/
structure InstState where
  succeeded : List String
  failed : List String
  fs : FS
  trace : List (Rat × String)

/-- The body of the `install_bios_to_sd` loop over the remaining entries. -/
def instLoop (copyErr : String → Option String)
    (cache_dir sd_mount : String) (total : Nat) :
    List BiosEntry → Nat → FS → InstState
  | [], _, fs => ⟨[], [], fs, []⟩
  | e :: es, idx, fs =>
    if FS.isFile fs (cache_path_for e cache_dir) then
      match installCopies copyErr (cache_path_for e cache_dir)
          (installTargets e sd_mount) fs with
      | (none, fs1) =>
          match instLoop copyErr cache_dir sd_mount total es (idx + 1) fs1 with
          | r =>
            ⟨e.filename :: r.succeeded, r.failed, r.fs,
              (fracOf idx total, "Installing: " ++ e.filename) :: r.trace⟩
      | (some exc, fs1) =>
          match instLoop copyErr cache_dir sd_mount total es (idx + 1) fs1 with
          | r =>
            ⟨r.succeeded, (e.filename ++ ": " ++ exc) :: r.failed, r.fs,
              (fracOf idx total, "Installing: " ++ e.filename) :: r.trace⟩
    else
      match instLoop copyErr cache_dir sd_mount total es (idx + 1) fs with
      | r =>
          ⟨r.succeeded, (e.filename ++ ": not in cache") :: r.failed, r.fs,
            r.trace⟩

/-- Result of a whole install batch call. -/
structure InstResult where
  allOk : Bool
  succeeded : List String
  failed : List String
  fs : FS
  trace : List (Rat × String)

/-- The aggregation at the end of `install_bios_to_sd`: the final progress
invocation and `all_ok = len(failed) == 0`. -/
def instFinish (r : InstState) : InstResult :=
  ⟨r.failed.isEmpty, r.succeeded, r.failed, r.fs,
    r.trace ++ [((1 : Rat), "Installation complete")]⟩

/-- `install_bios_to_sd(cache_dir, sd_mount, progress_cb, required_only)`. -/
def install_bios_to_sd (copyErr : String → Option String)
    (cache_dir sd_mount : String) (required_only : Bool) (fs : FS) :
    InstResult :=
  instFinish (instLoop copyErr cache_dir sd_mount
    (biosFilter required_only).length (biosFilter required_only) 0 fs)

/-- The bytes of a string, used to build concrete test file contents. -/
def md5Bytes (s : String) : Bytes :=
  s.data.map Char.toNat

/-- A concrete digest function for tests: decode the bytes back to a string.
Its outputs on `md5Bytes` contents are the original (lowercase) strings. -/
def bytesDigest : Bytes → String :=
  fun c => ⟨c.map Char.ofNat⟩

/-- A concrete cache holding, for every catalog entry, a file whose
`bytesDigest` equals the entry's expected checksum. -/
def fullCacheFS : FS :=
  FS.ofList ((biosFilter false).map
    (fun e => (cache_path_for e "cache", md5Bytes e.md5)))

theorem fs_write_self (fs : FS) (p : String) (c : Bytes) :
    FS.write fs p c p = some c := by
  simp [FS.write]

theorem fs_write_other (fs : FS) (p q : String) (c : Bytes) (h : q ≠ p) :
    FS.write fs p c q = fs q := by
  simp [FS.write, h]

theorem fs_erase_self (fs : FS) (p : String) : FS.erase fs p p = none := by
  simp [FS.erase]

theorem fs_erase_other (fs : FS) (p q : String) (h : q ≠ p) :
    FS.erase fs p q = fs q := by
  simp [FS.erase, h]

theorem verify_md5_sentinel (digest : Bytes → String) (fs : FS) (p : String) :
    verify_md5 digest fs p "" = some true := by
  simp [verify_md5]

theorem verify_md5_point (digest : Bytes → String) (fs fs' : FS)
    (p expected : String) (h : fs p = fs' p) :
    verify_md5 digest fs p expected = verify_md5 digest fs' p expected := by
  simp [verify_md5, h]

theorem verify_md5_write_self (digest : Bytes → String) (fs : FS)
    (p expected : String) (c : Bytes) (h : expected ≠ "") :
    verify_md5 digest (FS.write fs p c) p expected
      = some (digest c == strLower expected) := by
  simp [verify_md5, h, fs_write_self]

theorem verify_md5_write_self_true (digest : Bytes → String) (fs : FS)
    (p expected : String) (c : Bytes)
    (h : expected = "" ∨ digest c = strLower expected) :
    verify_md5 digest (FS.write fs p c) p expected = some true := by
  rcases h with h | h
  · subst h; exact verify_md5_sentinel digest _ p
  · by_cases hexp : expected = ""
    · subst hexp; exact verify_md5_sentinel digest _ p
    · rw [verify_md5_write_self digest fs p expected c hexp, h]
      simp

theorem download_bios_file_ok_true (digest : Bytes → String)
    (net : String → NetOutcome) (e : BiosEntry) (cache_dir : String)
    (fs : FS) (b : Bytes) (hnet : net (build_download_url e) = .ok b)
    (hok : e.md5 = "" ∨ digest b = strLower e.md5) :
    download_bios_file digest net e cache_dir fs
      = some ((true, "Downloaded " ++ e.filename),
          FS.write fs (cache_path_for e cache_dir) b) := by
  simp only [download_bios_file, hnet,
    verify_md5_write_self_true digest fs (cache_path_for e cache_dir) e.md5 b hok]

theorem download_bios_file_ok_false (digest : Bytes → String)
    (net : String → NetOutcome) (e : BiosEntry) (cache_dir : String)
    (fs : FS) (b : Bytes) (hnet : net (build_download_url e) = .ok b)
    (hmd5 : e.md5 ≠ "") (hbad : digest b ≠ strLower e.md5) :
    download_bios_file digest net e cache_dir fs
      = some ((false, "MD5 verification failed for " ++ e.filename),
          FS.erase (FS.write fs (cache_path_for e cache_dir) b)
            (cache_path_for e cache_dir)) := by
  have hb : (digest b == strLower e.md5) = false := by
    simp [hbad]
  simp only [download_bios_file, hnet,
    verify_md5_write_self digest fs (cache_path_for e cache_dir) e.md5 b hmd5, hb]

/-- C1: if the full response body is written but its digest does not match a
non-empty expected checksum, `download_bios_file` unlinks the file at the
resolved cache path and returns failure with the verification message; in
particular the cache path holds no file afterwards. -/
theorem c1_checksum_mismatch_removes_file (digest : Bytes → String)
    (net : String → NetOutcome) (e : BiosEntry) (cache_dir : String)
    (fs : FS) (b : Bytes) (hnet : net (build_download_url e) = .ok b)
    (hmd5 : e.md5 ≠ "") (hbad : digest b ≠ strLower e.md5) :
    download_bios_file digest net e cache_dir fs
      = some ((false, "MD5 verification failed for " ++ e.filename),
          FS.erase (FS.write fs (cache_path_for e cache_dir) b)
            (cache_path_for e cache_dir))
    ∧ FS.erase (FS.write fs (cache_path_for e cache_dir) b)
        (cache_path_for e cache_dir) (cache_path_for e cache_dir) = none := by
  exact ⟨download_bios_file_ok_false digest net e cache_dir fs b hnet hmd5 hbad,
    fs_erase_self _ _⟩

/-- C1 witness: concrete mismatching download. -/
theorem c1_checksum_mismatch_removes_file_witness :
    download_bios_file (fun _ => "00") (fun _ => NetOutcome.ok [7])
      { filename := "f.bin", system := "X", md5 := "aa", required := true,
        subdir := "", extra_copies := [], notes := "" } "c" emptyFS
      = some ((false, "MD5 verification failed for f.bin"),
          FS.erase (FS.write emptyFS "c/f.bin" [7]) "c/f.bin")
    ∧ FS.erase (FS.write emptyFS "c/f.bin" [7]) "c/f.bin" "c/f.bin" = none := by
  exact c1_checksum_mismatch_removes_file (fun _ => "00")
    (fun _ => NetOutcome.ok [7]) _ "c" emptyFS [7] rfl (by decide) (by decide)

theorem download_bios_file_transport (digest : Bytes → String)
    (net : String → NetOutcome) (e : BiosEntry) (cache_dir : String)
    (fs : FS) (herr : (net (build_download_url e)).isTransportError = true) :
    download_bios_file digest net e cache_dir fs
      = some ((false, (net (build_download_url e)).transportMsg e.filename),
          (net (build_download_url e)).partialFs fs
            (cache_path_for e cache_dir)) := by
  rcases h : net (build_download_url e) with b | ⟨code, reason⟩ | reason
    | ⟨w, reason⟩ | w | ⟨w, exc⟩
  · rw [h] at herr
    simp [NetOutcome.isTransportError] at herr
  all_goals
    simp [download_bios_file, h, NetOutcome.transportMsg, NetOutcome.partialFs]

theorem transportMsg_carries_filename (o : NetOutcome) (f : String)
    (herr : o.isTransportError = true) :
    ∃ pre post, o.transportMsg f = pre ++ f ++ post := by
  rcases o with b | ⟨code, reason⟩ | reason | ⟨w, reason⟩ | w | ⟨w, exc⟩
  · simp [NetOutcome.isTransportError] at herr
  · exact ⟨"HTTP " ++ toString code ++ " downloading ", ": " ++ reason, by
      simp [NetOutcome.transportMsg, String.append_assoc]⟩
  · exact ⟨"Network error downloading ", ": " ++ reason, by
      simp [NetOutcome.transportMsg, String.append_assoc]⟩
  · exact ⟨"Network error downloading ", ": " ++ reason, by
      simp [NetOutcome.transportMsg, String.append_assoc]⟩
  · exact ⟨"Timeout downloading ", "", by
      simp [NetOutcome.transportMsg, String.append_assoc]⟩
  · exact ⟨"File error saving ", ": " ++ exc, by
      simp [NetOutcome.transportMsg, String.append_assoc]⟩

theorem partialFs_keeps_files (o : NetOutcome) (fs : FS) (dest p : String)
    (c : Bytes) (hp : fs p = some c) :
    ∃ c', o.partialFs fs dest p = some c' := by
  rcases o with b | ⟨code, reason⟩ | reason | ⟨w, reason⟩ | w | ⟨w, exc⟩
  · exact ⟨c, hp⟩
  · exact ⟨c, hp⟩
  · exact ⟨c, hp⟩
  all_goals
    by_cases hpd : p = dest
    · subst hpd
      exact ⟨w, fs_write_self fs p w⟩
    · exact ⟨c, by rw [NetOutcome.partialFs, fs_write_other fs dest p w hpd]; exact hp⟩

/-- C4: every transport failure (HTTP error, connection error, timeout, or
filesystem write error) makes `download_bios_file` return failure with the
classified message carrying the filename and underlying cause, leaves the
filesystem as the failure found it (the partial bytes, where some were
written, stay at the cache path), and in particular removes no existing
file. -/
theorem c4_transport_failure_keeps_partial_file (digest : Bytes → String)
    (net : String → NetOutcome) (e : BiosEntry) (cache_dir : String)
    (fs : FS) (herr : (net (build_download_url e)).isTransportError = true) :
    download_bios_file digest net e cache_dir fs
      = some ((false, (net (build_download_url e)).transportMsg e.filename),
          (net (build_download_url e)).partialFs fs
            (cache_path_for e cache_dir))
    ∧ (∃ pre post,
        (net (build_download_url e)).transportMsg e.filename
          = pre ++ e.filename ++ post)
    ∧ ∀ p c, fs p = some c →
        ∃ c', (net (build_download_url e)).partialFs fs
          (cache_path_for e cache_dir) p = some c' := by
  exact ⟨download_bios_file_transport digest net e cache_dir fs herr,
    transportMsg_carries_filename _ e.filename herr,
    fun p c hp => partialFs_keeps_files _ fs _ p c hp⟩

/-- C4 witness: a concrete HTTP 404 leaves the filesystem untouched. -/
theorem c4_transport_failure_keeps_partial_file_witness :
    download_bios_file (fun _ => "00")
      (fun _ => NetOutcome.connectHttpError 404 "Not Found")
      { filename := "f.bin", system := "X", md5 := "aa", required := true,
        subdir := "", extra_copies := [], notes := "" } "c"
      (FS.ofList [("keep.bin", [9])])
      = some ((false, "HTTP 404 downloading f.bin: Not Found"),
          FS.ofList [("keep.bin", [9])])
    ∧ ∃ c', FS.ofList [("keep.bin", [9])] "keep.bin" = some c' := by
  have h := c4_transport_failure_keeps_partial_file (fun _ => "00")
    (fun _ => NetOutcome.connectHttpError 404 "Not Found")
    { filename := "f.bin", system := "X", md5 := "aa", required := true,
      subdir := "", extra_copies := [], notes := "" } "c"
    (FS.ofList [("keep.bin", [9])]) (by decide)
  exact ⟨h.1, h.2.2 "keep.bin" [9] (by decide)⟩

/-- C6: on a readable file, `verify_md5` returns true exactly when the
expected checksum is empty (the skip sentinel) or the computed digest equals
the expected checksum case-insensitively, and returns false otherwise.  The
hypothesis `hlow` records that `hexdigest()` output is already lowercase, so
the code's comparison against `expected.lower()` is the case-insensitive
comparison. -/
theorem c6_verify_md5_semantics (digest : Bytes → String) (fs : FS)
    (file_path expected : String) (content : Bytes)
    (hfile : fs file_path = some content)
    (hlow : strLower (digest content) = digest content) :
    (verify_md5 digest fs file_path expected = some true
      ↔ (expected = "" ∨ strLower (digest content) = strLower expected))
    ∧ (verify_md5 digest fs file_path expected = some false
      ↔ ¬(expected = "" ∨ strLower (digest content) = strLower expected)) := by
  have key : digest content = strLower expected
      ↔ strLower (digest content) = strLower expected := by
    constructor
    · intro h
      rw [hlow]
      exact h
    · intro h
      rw [← hlow]
      exact h
  by_cases hexp : expected = ""
  · subst hexp
    simp [verify_md5]
  · simp [verify_md5, hexp, hfile, key]

/-- C6 witness: a concrete uppercase expected checksum matches. -/
theorem c6_verify_md5_semantics_witness :
    verify_md5 (fun _ => "ab") (FS.ofList [("p", [1])]) "p" "AB"
      = some true := by
  exact (c6_verify_md5_semantics (fun _ => "ab") (FS.ofList [("p", [1])])
    "p" "AB" [1] (by decide) (by decide)).1.mpr (by decide)

/-- C9: with the empty expected checksum, `verify_md5` returns true without
reading the file (so also on a nonexistent path); with a non-empty expected
checksum and a nonexistent file it raises (`none`), rather than returning
false. -/
theorem c9_verify_md5_missing_file (digest : Bytes → String) (fs : FS)
    (file_path : String) :
    verify_md5 digest fs file_path "" = some true
    ∧ ∀ expected, fs file_path = none → expected ≠ "" →
        verify_md5 digest fs file_path expected = none := by
  refine ⟨verify_md5_sentinel digest fs file_path, ?_⟩
  intro expected hnone hexp
  simp [verify_md5, hexp, hnone]

/-- C9 witness: the empty filesystem. -/
theorem c9_verify_md5_missing_file_witness :
    verify_md5 (fun _ => "ab") emptyFS "q" "" = some true
    ∧ verify_md5 (fun _ => "ab") emptyFS "q" "aa" = none := by
  have h := c9_verify_md5_missing_file (fun _ => "ab") emptyFS "q"
  exact ⟨h.1, h.2 "aa" rfl (by decide)⟩

theorem partialFs_point (o : NetOutcome) (fs : FS) (dest p : String)
    (hp : p ≠ dest) : o.partialFs fs dest p = fs p := by
  rcases o with b | ⟨code, reason⟩ | reason | ⟨w, reason⟩ | w | ⟨w, exc⟩
  all_goals simp [NetOutcome.partialFs, fs_write_other _ _ _ _ hp]

theorem download_bios_file_isSome (digest : Bytes → String)
    (net : String → NetOutcome) (e : BiosEntry) (cache_dir : String)
    (fs : FS) :
    (download_bios_file digest net e cache_dir fs).isSome = true := by
  rcases h : net (build_download_url e) with b | ⟨code, reason⟩ | reason
    | ⟨w, reason⟩ | w | ⟨w, exc⟩
  · by_cases hmd5 : e.md5 = ""
    · rw [download_bios_file_ok_true digest net e cache_dir fs b h (Or.inl hmd5)]
      rfl
    · by_cases hd : digest b = strLower e.md5
      · rw [download_bios_file_ok_true digest net e cache_dir fs b h (Or.inr hd)]
        rfl
      · rw [download_bios_file_ok_false digest net e cache_dir fs b h hmd5 hd]
        rfl
  all_goals
    rw [download_bios_file_transport digest net e cache_dir fs (by rw [h]; rfl)]
    rfl

theorem download_bios_file_frame (digest : Bytes → String)
    (net : String → NetOutcome) (e : BiosEntry) (cache_dir : String)
    (fs fs1 : FS) (ok : Bool) (msg : String)
    (hdl : download_bios_file digest net e cache_dir fs = some ((ok, msg), fs1))
    (p : String) (hp : p ≠ cache_path_for e cache_dir) :
    fs1 p = fs p := by
  rcases h : net (build_download_url e) with b | ⟨code, reason⟩ | reason
    | ⟨w, reason⟩ | w | ⟨w, exc⟩
  · by_cases hmd5 : e.md5 = ""
    · rw [download_bios_file_ok_true digest net e cache_dir fs b h
        (Or.inl hmd5)] at hdl
      simp only [Option.some.injEq, Prod.mk.injEq] at hdl
      rw [← hdl.2]
      exact fs_write_other fs _ p b hp
    · by_cases hd : digest b = strLower e.md5
      · rw [download_bios_file_ok_true digest net e cache_dir fs b h
          (Or.inr hd)] at hdl
        simp only [Option.some.injEq, Prod.mk.injEq] at hdl
        rw [← hdl.2]
        exact fs_write_other fs _ p b hp
      · rw [download_bios_file_ok_false digest net e cache_dir fs b h hmd5 hd]
          at hdl
        simp only [Option.some.injEq, Prod.mk.injEq] at hdl
        rw [← hdl.2, fs_erase_other _ _ _ hp]
        exact fs_write_other fs _ p b hp
  all_goals
    rw [download_bios_file_transport digest net e cache_dir fs
      (by rw [h]; rfl)] at hdl
    simp only [Option.some.injEq, Prod.mk.injEq] at hdl
    rw [← hdl.2]
    exact partialFs_point _ fs _ p hp

theorem download_bios_file_true_inv (digest : Bytes → String)
    (net : String → NetOutcome) (e : BiosEntry) (cache_dir : String)
    (fs fs1 : FS) (msg : String)
    (hdl : download_bios_file digest net e cache_dir fs
      = some ((true, msg), fs1)) :
    ∃ b, net (build_download_url e) = .ok b
      ∧ fs1 = FS.write fs (cache_path_for e cache_dir) b
      ∧ (e.md5 = "" ∨ digest b = strLower e.md5) := by
  rcases h : net (build_download_url e) with b | ⟨code, reason⟩ | reason
    | ⟨w, reason⟩ | w | ⟨w, exc⟩
  · by_cases hmd5 : e.md5 = ""
    · rw [download_bios_file_ok_true digest net e cache_dir fs b h
        (Or.inl hmd5)] at hdl
      simp only [Option.some.injEq, Prod.mk.injEq] at hdl
      exact ⟨b, rfl, hdl.2.symm, Or.inl hmd5⟩
    · by_cases hd : digest b = strLower e.md5
      · rw [download_bios_file_ok_true digest net e cache_dir fs b h
          (Or.inr hd)] at hdl
        simp only [Option.some.injEq, Prod.mk.injEq] at hdl
        exact ⟨b, rfl, hdl.2.symm, Or.inr hd⟩
      · rw [download_bios_file_ok_false digest net e cache_dir fs b h hmd5 hd]
          at hdl
        simp at hdl
  all_goals
    rw [download_bios_file_transport digest net e cache_dir fs
      (by rw [h]; rfl)] at hdl
    simp at hdl

theorem dlLoop_nil (digest : Bytes → String) (net : String → NetOutcome)
    (cache_dir : String) (skip_cached : Bool) (total idx : Nat) (fs : FS) :
    dlLoop digest net cache_dir skip_cached total [] idx fs
      = some ⟨[], [], fs, [], []⟩ := rfl

theorem dlLoop_cons_skip (digest : Bytes → String) (net : String → NetOutcome)
    (cache_dir : String) (skip_cached : Bool) (total : Nat) (e : BiosEntry)
    (es : List BiosEntry) (idx : Nat) (fs : FS)
    (hs : (skip_cached && FS.isFile fs (cache_path_for e cache_dir)
      && (verify_md5 digest fs (cache_path_for e cache_dir) e.md5
          == some true)) = true) :
    dlLoop digest net cache_dir skip_cached total (e :: es) idx fs
      = (dlLoop digest net cache_dir skip_cached total es (idx + 1) fs).map
        (fun r => ⟨e.filename :: r.succeeded, r.failed, r.fs,
          (fracOf idx total, "Cached: " ++ e.filename) :: r.trace,
          r.requests⟩) := by
  rw [dlLoop, if_pos hs]

theorem dlLoop_cons_dl (digest : Bytes → String) (net : String → NetOutcome)
    (cache_dir : String) (skip_cached : Bool) (total : Nat) (e : BiosEntry)
    (es : List BiosEntry) (idx : Nat) (fs fs1 : FS) (ok : Bool) (msg : String)
    (hs : (skip_cached && FS.isFile fs (cache_path_for e cache_dir)
      && (verify_md5 digest fs (cache_path_for e cache_dir) e.md5
          == some true)) = false)
    (hdl : download_bios_file digest net e cache_dir fs
      = some ((ok, msg), fs1)) :
    dlLoop digest net cache_dir skip_cached total (e :: es) idx fs
      = (dlLoop digest net cache_dir skip_cached total es (idx + 1) fs1).map
        (fun r =>
          if ok then
            ⟨e.filename :: r.succeeded, r.failed, r.fs,
              (fracOf idx total, "Downloading: " ++ e.filename) :: r.trace,
              build_download_url e :: r.requests⟩
          else
            ⟨r.succeeded, (e.filename ++ ": " ++ msg) :: r.failed, r.fs,
              (fracOf idx total, "Downloading: " ++ e.filename) :: r.trace,
              build_download_url e :: r.requests⟩) := by
  rw [dlLoop, if_neg (by rw [hs]; exact Bool.false_ne_true), hdl]

theorem dlLoop_isSome (digest : Bytes → String) (net : String → NetOutcome)
    (cache_dir : String) (skip_cached : Bool) (total : Nat) :
    ∀ (es : List BiosEntry) (idx : Nat) (fs : FS),
      (dlLoop digest net cache_dir skip_cached total es idx fs).isSome
        = true := by
  intro es
  induction es with
  | nil => intro idx fs; rfl
  | cons e es ih =>
    intro idx fs
    cases hs : (skip_cached && FS.isFile fs (cache_path_for e cache_dir)
        && (verify_md5 digest fs (cache_path_for e cache_dir) e.md5
            == some true)) with
    | true =>
      rw [dlLoop_cons_skip digest net cache_dir skip_cached total e es idx fs
        hs]
      obtain ⟨r, hr⟩ := Option.isSome_iff_exists.mp (ih (idx + 1) fs)
      rw [hr]
      rfl
    | false =>
      obtain ⟨⟨⟨ok, msg⟩, fs1⟩, hdl⟩ := Option.isSome_iff_exists.mp
        (download_bios_file_isSome digest net e cache_dir fs)
      rw [dlLoop_cons_dl digest net cache_dir skip_cached total e es idx fs
        fs1 ok msg hs hdl]
      obtain ⟨r, hr⟩ := Option.isSome_iff_exists.mp (ih (idx + 1) fs1)
      rw [hr]
      rfl

theorem dlLoop_outcomes (digest : Bytes → String) (net : String → NetOutcome)
    (cache_dir : String) (skip_cached : Bool) (total : Nat) :
    ∀ (es : List BiosEntry) (idx : Nat) (fs : FS) (r : DlState),
      dlLoop digest net cache_dir skip_cached total es idx fs = some r →
      ∃ outs : List (Option String), outs.length = es.length
        ∧ r.succeeded = (es.zip outs).filterMap
            (fun p => match p.2 with
              | none => some p.1.filename
              | some _ => none)
        ∧ r.failed = (es.zip outs).filterMap
            (fun p => match p.2 with
              | some m => some (p.1.filename ++ ": " ++ m)
              | none => none) := by
  intro es
  induction es with
  | nil =>
    intro idx fs r hr
    rw [dlLoop_nil] at hr
    simp only [Option.some.injEq] at hr
    subst hr
    exact ⟨[], rfl, rfl, rfl⟩
  | cons e es ih =>
    intro idx fs r hr
    cases hs : (skip_cached && FS.isFile fs (cache_path_for e cache_dir)
        && (verify_md5 digest fs (cache_path_for e cache_dir) e.md5
            == some true)) with
    | true =>
      rw [dlLoop_cons_skip digest net cache_dir skip_cached total e es idx fs
        hs] at hr
      obtain ⟨r', hr'⟩ := Option.isSome_iff_exists.mp
        (dlLoop_isSome digest net cache_dir skip_cached total es (idx + 1) fs)
      rw [hr'] at hr
      simp only [Option.map_some', Option.some.injEq] at hr
      subst hr
      obtain ⟨outs, hlen, hsucc, hfail⟩ := ih (idx + 1) fs r' hr'
      refine ⟨none :: outs, by simp [hlen], ?_, ?_⟩
      · simp [List.zip_cons_cons, List.filterMap_cons, hsucc]
      · simp [List.zip_cons_cons, List.filterMap_cons, hfail]
    | false =>
      obtain ⟨⟨⟨ok, msg⟩, fs1⟩, hdl⟩ := Option.isSome_iff_exists.mp
        (download_bios_file_isSome digest net e cache_dir fs)
      rw [dlLoop_cons_dl digest net cache_dir skip_cached total e es idx fs
        fs1 ok msg hs hdl] at hr
      obtain ⟨r', hr'⟩ := Option.isSome_iff_exists.mp
        (dlLoop_isSome digest net cache_dir skip_cached total es (idx + 1) fs1)
      rw [hr'] at hr
      simp only [Option.map_some', Option.some.injEq] at hr
      obtain ⟨outs, hlen, hsucc, hfail⟩ := ih (idx + 1) fs1 r' hr'
      cases ok with
      | true =>
        rw [if_pos rfl] at hr
        subst hr
        refine ⟨none :: outs, by simp [hlen], ?_, ?_⟩
        · simp [List.zip_cons_cons, List.filterMap_cons, hsucc]
        · simp [List.zip_cons_cons, List.filterMap_cons, hfail]
      | false =>
        rw [if_neg Bool.false_ne_true] at hr
        subst hr
        refine ⟨some msg :: outs, by simp [hlen], ?_, ?_⟩
        · simp [List.zip_cons_cons, List.filterMap_cons, hsucc]
        · simp [List.zip_cons_cons, List.filterMap_cons, hfail]

theorem dlLoop_lengths (digest : Bytes → String) (net : String → NetOutcome)
    (cache_dir : String) (skip_cached : Bool) (total : Nat)
    (es : List BiosEntry) (idx : Nat) (fs : FS) (r : DlState)
    (hr : dlLoop digest net cache_dir skip_cached total es idx fs = some r) :
    r.succeeded.length + r.failed.length = es.length := by
  obtain ⟨outs, hlen, hsucc, hfail⟩ :=
    dlLoop_outcomes digest net cache_dir skip_cached total es idx fs r hr
  rw [hsucc, hfail]
  have hz : (es.zip outs).length = es.length := by
    rw [List.length_zip, hlen, Nat.min_self]
  rw [← hz]
  induction es.zip outs with
  | nil => rfl
  | cons p ps ihp =>
    rcases p with ⟨e', o'⟩
    rcases o' with _ | m
    · simp only [List.filterMap_cons, List.length_cons]
      omega
    · simp only [List.filterMap_cons, List.length_cons]
      omega

theorem dlLoop_trace (digest : Bytes → String) (net : String → NetOutcome)
    (cache_dir : String) (skip_cached : Bool) (total : Nat) :
    ∀ (es : List BiosEntry) (idx : Nat) (fs : FS) (r : DlState),
      dlLoop digest net cache_dir skip_cached total es idx fs = some r →
      r.trace.map Prod.fst
        = (List.range' idx es.length).map (fun i => fracOf i total) := by
  intro es
  induction es with
  | nil =>
    intro idx fs r hr
    rw [dlLoop_nil] at hr
    simp only [Option.some.injEq] at hr
    subst hr
    rfl
  | cons e es ih =>
    intro idx fs r hr
    cases hs : (skip_cached && FS.isFile fs (cache_path_for e cache_dir)
        && (verify_md5 digest fs (cache_path_for e cache_dir) e.md5
            == some true)) with
    | true =>
      rw [dlLoop_cons_skip digest net cache_dir skip_cached total e es idx fs
        hs] at hr
      obtain ⟨r', hr'⟩ := Option.isSome_iff_exists.mp
        (dlLoop_isSome digest net cache_dir skip_cached total es (idx + 1) fs)
      rw [hr'] at hr
      simp only [Option.map_some', Option.some.injEq] at hr
      subst hr
      simp only [List.map_cons, List.length_cons, List.range'_succ]
      rw [ih (idx + 1) fs r' hr']
    | false =>
      obtain ⟨⟨⟨ok, msg⟩, fs1⟩, hdl⟩ := Option.isSome_iff_exists.mp
        (download_bios_file_isSome digest net e cache_dir fs)
      rw [dlLoop_cons_dl digest net cache_dir skip_cached total e es idx fs
        fs1 ok msg hs hdl] at hr
      obtain ⟨r', hr'⟩ := Option.isSome_iff_exists.mp
        (dlLoop_isSome digest net cache_dir skip_cached total es (idx + 1)
          fs1)
      rw [hr'] at hr
      simp only [Option.map_some', Option.some.injEq] at hr
      cases ok with
      | true =>
        rw [if_pos rfl] at hr
        subst hr
        simp only [List.map_cons, List.length_cons, List.range'_succ]
        rw [ih (idx + 1) fs1 r' hr']
      | false =>
        rw [if_neg Bool.false_ne_true] at hr
        subst hr
        simp only [List.map_cons, List.length_cons, List.range'_succ]
        rw [ih (idx + 1) fs1 r' hr']

theorem dlLoop_frame (digest : Bytes → String) (net : String → NetOutcome)
    (cache_dir : String) (skip_cached : Bool) (total : Nat) :
    ∀ (es : List BiosEntry) (idx : Nat) (fs : FS) (r : DlState),
      dlLoop digest net cache_dir skip_cached total es idx fs = some r →
      ∀ p, (∀ e ∈ es, p ≠ cache_path_for e cache_dir) → r.fs p = fs p := by
  intro es
  induction es with
  | nil =>
    intro idx fs r hr p _
    rw [dlLoop_nil] at hr
    simp only [Option.some.injEq] at hr
    subst hr
    rfl
  | cons e es ih =>
    intro idx fs r hr p hp
    cases hs : (skip_cached && FS.isFile fs (cache_path_for e cache_dir)
        && (verify_md5 digest fs (cache_path_for e cache_dir) e.md5
            == some true)) with
    | true =>
      rw [dlLoop_cons_skip digest net cache_dir skip_cached total e es idx fs
        hs] at hr
      obtain ⟨r', hr'⟩ := Option.isSome_iff_exists.mp
        (dlLoop_isSome digest net cache_dir skip_cached total es (idx + 1) fs)
      rw [hr'] at hr
      simp only [Option.map_some', Option.some.injEq] at hr
      subst hr
      exact ih (idx + 1) fs r' hr' p (fun e' he' => hp e' (List.mem_cons_of_mem e he'))
    | false =>
      obtain ⟨⟨⟨ok, msg⟩, fs1⟩, hdl⟩ := Option.isSome_iff_exists.mp
        (download_bios_file_isSome digest net e cache_dir fs)
      rw [dlLoop_cons_dl digest net cache_dir skip_cached total e es idx fs
        fs1 ok msg hs hdl] at hr
      obtain ⟨r', hr'⟩ := Option.isSome_iff_exists.mp
        (dlLoop_isSome digest net cache_dir skip_cached total es (idx + 1)
          fs1)
      rw [hr'] at hr
      simp only [Option.map_some', Option.some.injEq] at hr
      have hfs1 : fs1 p = fs p :=
        download_bios_file_frame digest net e cache_dir fs fs1 ok msg hdl p
          (hp e (List.mem_cons_self e es))
      have htail : ∀ e' ∈ es, p ≠ cache_path_for e' cache_dir :=
        fun e' he' => hp e' (List.mem_cons_of_mem e he')
      cases ok with
      | true =>
        rw [if_pos rfl] at hr
        subst hr
        rw [ih (idx + 1) fs1 r' hr' p htail]
        exact hfs1
      | false =>
        rw [if_neg Bool.false_ne_true] at hr
        subst hr
        rw [ih (idx + 1) fs1 r' hr' p htail]
        exact hfs1

theorem dlLoop_succ_all (digest : Bytes → String) (net : String → NetOutcome)
    (cache_dir : String) (skip_cached : Bool) (total : Nat) :
    ∀ (es : List BiosEntry) (idx : Nat) (fs : FS) (r : DlState),
      dlLoop digest net cache_dir skip_cached total es idx fs = some r →
      r.failed = [] →
      r.succeeded = es.map (fun e => e.filename) := by
  intro es
  induction es with
  | nil =>
    intro idx fs r hr _
    rw [dlLoop_nil] at hr
    simp only [Option.some.injEq] at hr
    subst hr
    rfl
  | cons e es ih =>
    intro idx fs r hr hfail
    cases hs : (skip_cached && FS.isFile fs (cache_path_for e cache_dir)
        && (verify_md5 digest fs (cache_path_for e cache_dir) e.md5
            == some true)) with
    | true =>
      rw [dlLoop_cons_skip digest net cache_dir skip_cached total e es idx fs
        hs] at hr
      obtain ⟨r', hr'⟩ := Option.isSome_iff_exists.mp
        (dlLoop_isSome digest net cache_dir skip_cached total es (idx + 1) fs)
      rw [hr'] at hr
      simp only [Option.map_some', Option.some.injEq] at hr
      subst hr
      simp only [List.map_cons, List.cons.injEq, true_and]
      exact ih (idx + 1) fs r' hr' hfail
    | false =>
      obtain ⟨⟨⟨ok, msg⟩, fs1⟩, hdl⟩ := Option.isSome_iff_exists.mp
        (download_bios_file_isSome digest net e cache_dir fs)
      rw [dlLoop_cons_dl digest net cache_dir skip_cached total e es idx fs
        fs1 ok msg hs hdl] at hr
      obtain ⟨r', hr'⟩ := Option.isSome_iff_exists.mp
        (dlLoop_isSome digest net cache_dir skip_cached total es (idx + 1)
          fs1)
      rw [hr'] at hr
      simp only [Option.map_some', Option.some.injEq] at hr
      cases ok with
      | true =>
        rw [if_pos rfl] at hr
        subst hr
        simp only [List.map_cons, List.cons.injEq, true_and]
        exact ih (idx + 1) fs1 r' hr' hfail
      | false =>
        rw [if_neg Bool.false_ne_true] at hr
        subst hr
        simp at hfail

theorem dlLoop_verified (digest : Bytes → String) (net : String → NetOutcome)
    (cache_dir : String) (skip_cached : Bool) (total : Nat) :
    ∀ (es : List BiosEntry) (idx : Nat) (fs : FS) (r : DlState),
      (es.map (fun e => cache_path_for e cache_dir)).Nodup →
      dlLoop digest net cache_dir skip_cached total es idx fs = some r →
      r.failed = [] →
      ∀ e ∈ es, FS.isFile r.fs (cache_path_for e cache_dir) = true
        ∧ verify_md5 digest r.fs (cache_path_for e cache_dir) e.md5
            = some true := by
  intro es
  induction es with
  | nil =>
    intro idx fs r _ hr _ e he
    exact absurd he (List.not_mem_nil e)
  | cons e es ih =>
    intro idx fs r hnd hr hfail e' he'
    have hnd' : (∀ x ∈ es, ¬cache_path_for x cache_dir
          = cache_path_for e cache_dir)
        ∧ (es.map (fun x => cache_path_for x cache_dir)).Nodup := by
      simpa using hnd
    have hndt := hnd'.2
    have hhead := hnd'.1
    cases hs : (skip_cached && FS.isFile fs (cache_path_for e cache_dir)
        && (verify_md5 digest fs (cache_path_for e cache_dir) e.md5
            == some true)) with
    | true =>
      rw [dlLoop_cons_skip digest net cache_dir skip_cached total e es idx fs
        hs] at hr
      obtain ⟨r', hr'⟩ := Option.isSome_iff_exists.mp
        (dlLoop_isSome digest net cache_dir skip_cached total es (idx + 1) fs)
      rw [hr'] at hr
      simp only [Option.map_some', Option.some.injEq] at hr
      subst hr
      simp only [Bool.and_eq_true, beq_iff_eq] at hs
      rcases List.mem_cons.mp he' with h | h
      · subst h
        have hframe : r'.fs (cache_path_for e' cache_dir)
            = fs (cache_path_for e' cache_dir) := by
          refine dlLoop_frame digest net cache_dir skip_cached total es
            (idx + 1) fs r' hr' _ ?_
          intro x hx hcontra
          exact hhead x hx hcontra.symm
        constructor
        · simp only [FS.isFile] at hs ⊢
          rw [hframe]
          exact hs.1.2
        · rw [verify_md5_point digest r'.fs fs _ e'.md5 hframe]
          exact hs.2
      · exact ih (idx + 1) fs r' hndt hr' hfail e' h
    | false =>
      obtain ⟨⟨⟨ok, msg⟩, fs1⟩, hdl⟩ := Option.isSome_iff_exists.mp
        (download_bios_file_isSome digest net e cache_dir fs)
      rw [dlLoop_cons_dl digest net cache_dir skip_cached total e es idx fs
        fs1 ok msg hs hdl] at hr
      obtain ⟨r', hr'⟩ := Option.isSome_iff_exists.mp
        (dlLoop_isSome digest net cache_dir skip_cached total es (idx + 1)
          fs1)
      rw [hr'] at hr
      simp only [Option.map_some', Option.some.injEq] at hr
      cases ok with
      | true =>
        rw [if_pos rfl] at hr
        subst hr
        obtain ⟨b, hb, hfs1, hok⟩ := download_bios_file_true_inv digest net e
          cache_dir fs fs1 msg hdl
        rcases List.mem_cons.mp he' with h | h
        · subst h
          have hframe : r'.fs (cache_path_for e' cache_dir)
              = fs1 (cache_path_for e' cache_dir) := by
            refine dlLoop_frame digest net cache_dir skip_cached total es
              (idx + 1) fs1 r' hr' _ ?_
            intro x hx hcontra
            exact hhead x hx hcontra.symm
          have hv1 : verify_md5 digest fs1 (cache_path_for e' cache_dir)
              e'.md5 = some true := by
            rw [hfs1]
            exact verify_md5_write_self_true digest fs _ e'.md5 b hok
          constructor
          · simp only [FS.isFile]
            rw [hframe, hfs1, fs_write_self]
            rfl
          · rw [verify_md5_point digest r'.fs fs1 _ e'.md5 hframe]
            exact hv1
        · exact ih (idx + 1) fs1 r' hndt hr' hfail e' h
      | false =>
        rw [if_neg Bool.false_ne_true] at hr
        subst hr
        simp at hfail

theorem dlLoop_skipAll (digest : Bytes → String) (net : String → NetOutcome)
    (cache_dir : String) (total : Nat) :
    ∀ (es : List BiosEntry) (idx : Nat) (fs : FS),
      (∀ e ∈ es, FS.isFile fs (cache_path_for e cache_dir) = true
        ∧ verify_md5 digest fs (cache_path_for e cache_dir) e.md5
            = some true) →
      ∃ r, dlLoop digest net cache_dir true total es idx fs = some r
        ∧ r.succeeded = es.map (fun e => e.filename)
        ∧ r.failed = [] ∧ r.fs = fs ∧ r.requests = [] := by
  intro es
  induction es with
  | nil =>
    intro idx fs _
    exact ⟨⟨[], [], fs, [], []⟩, rfl, rfl, rfl, rfl, rfl⟩
  | cons e es ih =>
    intro idx fs hall
    have hhead := hall e (List.mem_cons_self e es)
    have hs : (true && FS.isFile fs (cache_path_for e cache_dir)
        && (verify_md5 digest fs (cache_path_for e cache_dir) e.md5
            == some true)) = true := by
      simp [hhead.1, hhead.2]
    obtain ⟨r', hr', hsucc, hfail, hfs, hreq⟩ := ih (idx + 1) fs
      (fun x hx => hall x (List.mem_cons_of_mem e hx))
    refine ⟨⟨e.filename :: r'.succeeded, r'.failed, r'.fs,
      (fracOf idx total, "Cached: " ++ e.filename) :: r'.trace,
      r'.requests⟩, ?_, ?_, ?_, ?_, ?_⟩
    · rw [dlLoop_cons_skip digest net cache_dir true total e es idx fs hs,
        hr']
      rfl
    · simp [hsucc]
    · exact hfail
    · exact hfs
    · exact hreq

theorem installCopies_frame (copyErr : String → Option String) (src : String) :
    ∀ (ts : List String) (fs : FS) (p : String), p ∉ ts →
      (installCopies copyErr src ts fs).2 p = fs p := by
  intro ts
  induction ts with
  | nil => intro fs p _; rfl
  | cons t ts ih =>
    intro fs p hp
    rw [installCopies]
    cases hct : copyErr t with
    | some exc => rfl
    | none =>
      cases hsrc : fs src with
      | none => rfl
      | some c =>
        rw [ih (FS.write fs t c) p (fun h => hp (List.mem_cons_of_mem t h))]
        exact fs_write_other fs t p c (fun h => hp (h ▸ List.mem_cons_self t ts))

theorem installCopies_ok (copyErr : String → Option String) (src : String)
    (c : Bytes) :
    ∀ (ts : List String) (fs : FS), fs src = some c →
      (∀ t ∈ ts, copyErr t = none) → ts.Nodup → src ∉ ts →
      (installCopies copyErr src ts fs).1 = none
      ∧ (∀ t ∈ ts, (installCopies copyErr src ts fs).2 t = some c)
      ∧ (∀ p, p ∉ ts → (installCopies copyErr src ts fs).2 p = fs p) := by
  intro ts
  induction ts with
  | nil =>
    intro fs _ _ _ _
    exact ⟨rfl, by simp, fun p _ => rfl⟩
  | cons t ts ih =>
    intro fs hsrc hok hnd hsrcmem
    have hct : copyErr t = none := hok t (List.mem_cons_self t ts)
    have hsrcne : src ≠ t := fun h => hsrcmem (h ▸ List.mem_cons_self t ts)
    have hsrc1 : FS.write fs t c src = some c := by
      rw [fs_write_other fs t src c hsrcne]
      exact hsrc
    have hnd' := List.nodup_cons.mp hnd
    obtain ⟨h1, h2, h3⟩ := ih (FS.write fs t c) hsrc1
      (fun x hx => hok x (List.mem_cons_of_mem t hx)) hnd'.2
      (fun h => hsrcmem (List.mem_cons_of_mem t h))
    have hstep : installCopies copyErr src (t :: ts) fs
        = installCopies copyErr src ts (FS.write fs t c) := by
      rw [installCopies, hct, hsrc]
    refine ⟨by rw [hstep]; exact h1, ?_, ?_⟩
    · intro t' ht'
      rw [hstep]
      rcases List.mem_cons.mp ht' with h | h
      · subst h
        rw [h3 t' hnd'.1]
        exact fs_write_self fs t' c
      · exact h2 t' h
    · intro p hp
      rw [hstep, h3 p (fun h => hp (List.mem_cons_of_mem t h))]
      exact fs_write_other fs t p c (fun h => hp (h ▸ List.mem_cons_self t ts))

theorem instLoop_nil (copyErr : String → Option String)
    (cache_dir sd_mount : String) (total idx : Nat) (fs : FS) :
    instLoop copyErr cache_dir sd_mount total [] idx fs = ⟨[], [], fs, []⟩ :=
  rfl

theorem instLoop_cons_miss (copyErr : String → Option String)
    (cache_dir sd_mount : String) (total : Nat) (e : BiosEntry)
    (es : List BiosEntry) (idx : Nat) (fs : FS)
    (h : FS.isFile fs (cache_path_for e cache_dir) = false) :
    instLoop copyErr cache_dir sd_mount total (e :: es) idx fs
      = ⟨(instLoop copyErr cache_dir sd_mount total es (idx + 1) fs).succeeded,
          (e.filename ++ ": not in cache")
            :: (instLoop copyErr cache_dir sd_mount total es (idx + 1)
              fs).failed,
          (instLoop copyErr cache_dir sd_mount total es (idx + 1) fs).fs,
          (instLoop copyErr cache_dir sd_mount total es (idx + 1) fs).trace⟩
    := by
  rw [instLoop, if_neg (by rw [h]; exact Bool.false_ne_true)]

theorem instLoop_cons_hit_ok (copyErr : String → Option String)
    (cache_dir sd_mount : String) (total : Nat) (e : BiosEntry)
    (es : List BiosEntry) (idx : Nat) (fs fs1 : FS)
    (h : FS.isFile fs (cache_path_for e cache_dir) = true)
    (hc : installCopies copyErr (cache_path_for e cache_dir)
      (installTargets e sd_mount) fs = (none, fs1)) :
    instLoop copyErr cache_dir sd_mount total (e :: es) idx fs
      = ⟨e.filename
            :: (instLoop copyErr cache_dir sd_mount total es (idx + 1)
              fs1).succeeded,
          (instLoop copyErr cache_dir sd_mount total es (idx + 1) fs1).failed,
          (instLoop copyErr cache_dir sd_mount total es (idx + 1) fs1).fs,
          (fracOf idx total, "Installing: " ++ e.filename)
            :: (instLoop copyErr cache_dir sd_mount total es (idx + 1)
              fs1).trace⟩ := by
  rw [instLoop, if_pos h, hc]

theorem instLoop_cons_hit_err (copyErr : String → Option String)
    (cache_dir sd_mount : String) (total : Nat) (e : BiosEntry)
    (es : List BiosEntry) (idx : Nat) (fs fs1 : FS) (exc : String)
    (h : FS.isFile fs (cache_path_for e cache_dir) = true)
    (hc : installCopies copyErr (cache_path_for e cache_dir)
      (installTargets e sd_mount) fs = (some exc, fs1)) :
    instLoop copyErr cache_dir sd_mount total (e :: es) idx fs
      = ⟨(instLoop copyErr cache_dir sd_mount total es (idx + 1)
            fs1).succeeded,
          (e.filename ++ ": " ++ exc)
            :: (instLoop copyErr cache_dir sd_mount total es (idx + 1)
              fs1).failed,
          (instLoop copyErr cache_dir sd_mount total es (idx + 1) fs1).fs,
          (fracOf idx total, "Installing: " ++ e.filename)
            :: (instLoop copyErr cache_dir sd_mount total es (idx + 1)
              fs1).trace⟩ := by
  rw [instLoop, if_pos h, hc]

theorem instLoop_outcomes (copyErr : String → Option String)
    (cache_dir sd_mount : String) (total : Nat) :
    ∀ (es : List BiosEntry) (idx : Nat) (fs : FS),
      ∃ outs : List (Option String), outs.length = es.length
        ∧ (instLoop copyErr cache_dir sd_mount total es idx fs).succeeded
            = (es.zip outs).filterMap
              (fun p => match p.2 with
                | none => some p.1.filename
                | some _ => none)
        ∧ (instLoop copyErr cache_dir sd_mount total es idx fs).failed
            = (es.zip outs).filterMap
              (fun p => match p.2 with
                | some m => some (p.1.filename ++ ": " ++ m)
                | none => none) := by
  intro es
  induction es with
  | nil => exact fun idx fs => ⟨[], rfl, rfl, rfl⟩
  | cons e es ih =>
    intro idx fs
    cases hf : FS.isFile fs (cache_path_for e cache_dir) with
    | false =>
      obtain ⟨outs, hlen, hsucc, hfail⟩ := ih (idx + 1) fs
      refine ⟨some "not in cache" :: outs, by simp [hlen], ?_, ?_⟩
      · rw [instLoop_cons_miss copyErr cache_dir sd_mount total e es idx fs hf]
        simp only [List.zip_cons_cons, List.filterMap_cons]
        exact hsucc
      · have hstr : e.filename ++ ": not in cache"
            = e.filename ++ ": " ++ "not in cache" := by
          rw [String.append_assoc]
          exact rfl
        rw [instLoop_cons_miss copyErr cache_dir sd_mount total e es idx fs hf]
        simp only [List.zip_cons_cons, List.filterMap_cons]
        rw [hfail, hstr]
    | true =>
      rcases hc : installCopies copyErr (cache_path_for e cache_dir)
          (installTargets e sd_mount) fs with ⟨err, fs1⟩
      obtain ⟨outs, hlen, hsucc, hfail⟩ := ih (idx + 1) fs1
      cases err with
      | none =>
        refine ⟨none :: outs, by simp [hlen], ?_, ?_⟩
        · rw [instLoop_cons_hit_ok copyErr cache_dir sd_mount total e es idx
            fs fs1 hf hc]
          simp only [List.zip_cons_cons, List.filterMap_cons]
          rw [hsucc]
        · rw [instLoop_cons_hit_ok copyErr cache_dir sd_mount total e es idx
            fs fs1 hf hc]
          simp only [List.zip_cons_cons, List.filterMap_cons]
          exact hfail
      | some exc =>
        refine ⟨some exc :: outs, by simp [hlen], ?_, ?_⟩
        · rw [instLoop_cons_hit_err copyErr cache_dir sd_mount total e es idx
            fs fs1 exc hf hc]
          simp only [List.zip_cons_cons, List.filterMap_cons]
          exact hsucc
        · rw [instLoop_cons_hit_err copyErr cache_dir sd_mount total e es idx
            fs fs1 exc hf hc]
          simp only [List.zip_cons_cons, List.filterMap_cons]
          rw [hfail]

theorem instLoop_lengths (copyErr : String → Option String)
    (cache_dir sd_mount : String) (total : Nat) (es : List BiosEntry)
    (idx : Nat) (fs : FS) :
    (instLoop copyErr cache_dir sd_mount total es idx fs).succeeded.length
      + (instLoop copyErr cache_dir sd_mount total es idx fs).failed.length
      = es.length := by
  obtain ⟨outs, hlen, hsucc, hfail⟩ :=
    instLoop_outcomes copyErr cache_dir sd_mount total es idx fs
  rw [hsucc, hfail]
  have hz : (es.zip outs).length = es.length := by
    rw [List.length_zip, hlen, Nat.min_self]
  rw [← hz]
  induction es.zip outs with
  | nil => rfl
  | cons p ps ihp =>
    rcases p with ⟨e', o'⟩
    rcases o' with _ | m
    · simp only [List.filterMap_cons, List.length_cons]
      omega
    · simp only [List.filterMap_cons, List.length_cons]
      omega

theorem instLoop_empty_cache (copyErr : String → Option String)
    (cache_dir sd_mount : String) (total : Nat) :
    ∀ (es : List BiosEntry) (idx : Nat) (fs : FS),
      (∀ e ∈ es, fs (cache_path_for e cache_dir) = none) →
      instLoop copyErr cache_dir sd_mount total es idx fs
        = ⟨[], es.map (fun e => e.filename ++ ": not in cache"), fs, []⟩ := by
  intro es
  induction es with
  | nil => exact fun idx fs _ => rfl
  | cons e es ih =>
    intro idx fs hall
    have hf : FS.isFile fs (cache_path_for e cache_dir) = false := by
      simp [FS.isFile, hall e (List.mem_cons_self e es)]
    rw [instLoop_cons_miss copyErr cache_dir sd_mount total e es idx fs hf,
      ih (idx + 1) fs (fun x hx => hall x (List.mem_cons_of_mem e hx))]
    rfl

theorem instLoop_frame (copyErr : String → Option String)
    (cache_dir sd_mount : String) (total : Nat) :
    ∀ (es : List BiosEntry) (idx : Nat) (fs : FS) (p : String),
      (∀ e ∈ es, p ∉ installTargets e sd_mount) →
      (instLoop copyErr cache_dir sd_mount total es idx fs).fs p = fs p := by
  intro es
  induction es with
  | nil => exact fun idx fs p _ => rfl
  | cons e es ih =>
    intro idx fs p hp
    have htail : ∀ x ∈ es, p ∉ installTargets x sd_mount :=
      fun x hx => hp x (List.mem_cons_of_mem e hx)
    cases hf : FS.isFile fs (cache_path_for e cache_dir) with
    | false =>
      rw [instLoop_cons_miss copyErr cache_dir sd_mount total e es idx fs hf]
      exact ih (idx + 1) fs p htail
    | true =>
      rcases hc : installCopies copyErr (cache_path_for e cache_dir)
          (installTargets e sd_mount) fs with ⟨err, fs1⟩
      have hfs1 : fs1 p = fs p := by
        have := installCopies_frame copyErr (cache_path_for e cache_dir)
          (installTargets e sd_mount) fs p (hp e (List.mem_cons_self e es))
        rw [hc] at this
        exact this
      cases err with
      | none =>
        rw [instLoop_cons_hit_ok copyErr cache_dir sd_mount total e es idx fs
          fs1 hf hc]
        rw [ih (idx + 1) fs1 p htail]
        exact hfs1
      | some exc =>
        rw [instLoop_cons_hit_err copyErr cache_dir sd_mount total e es idx fs
          fs1 exc hf hc]
        rw [ih (idx + 1) fs1 p htail]
        exact hfs1

theorem instLoop_missing_tag (copyErr : String → Option String)
    (cache_dir sd_mount : String) (total : Nat) :
    ∀ (es : List BiosEntry) (idx : Nat) (fs : FS) (e : BiosEntry),
      e ∈ es →
      fs (cache_path_for e cache_dir) = none →
      (∀ e' ∈ es, ∀ t ∈ installTargets e' sd_mount,
        t ≠ cache_path_for e cache_dir) →
      (e.filename ++ ": not in cache")
        ∈ (instLoop copyErr cache_dir sd_mount total es idx fs).failed := by
  intro es
  induction es with
  | nil =>
    intro idx fs e he
    exact absurd he (List.not_mem_nil e)
  | cons e' es ih =>
    intro idx fs e he hnone hsep
    rcases List.mem_cons.mp he with heq | hmem
    · subst heq
      have hf : FS.isFile fs (cache_path_for e cache_dir) = false := by
        simp [FS.isFile, hnone]
      rw [instLoop_cons_miss copyErr cache_dir sd_mount total e es idx fs hf]
      exact List.mem_cons_self _ _
    · have hseptail : ∀ x ∈ es, ∀ t ∈ installTargets x sd_mount,
          t ≠ cache_path_for e cache_dir :=
        fun x hx => hsep x (List.mem_cons_of_mem e' hx)
      cases hf : FS.isFile fs (cache_path_for e' cache_dir) with
      | false =>
        rw [instLoop_cons_miss copyErr cache_dir sd_mount total e' es idx fs
          hf]
        exact List.mem_cons_of_mem _ (ih (idx + 1) fs e hmem hnone hseptail)
      | true =>
        rcases hc : installCopies copyErr (cache_path_for e' cache_dir)
            (installTargets e' sd_mount) fs with ⟨err, fs1⟩
        have hfs1 : fs1 (cache_path_for e cache_dir) = none := by
          have hfr := installCopies_frame copyErr
            (cache_path_for e' cache_dir) (installTargets e' sd_mount) fs
            (cache_path_for e cache_dir)
            (fun hmem' => hsep e' (List.mem_cons_self e' es) _ hmem' rfl)
          rw [hc] at hfr
          exact hfr.trans hnone
        cases err with
        | none =>
          rw [instLoop_cons_hit_ok copyErr cache_dir sd_mount total e' es idx
            fs fs1 hf hc]
          exact ih (idx + 1) fs1 e hmem hfs1 hseptail
        | some exc =>
          rw [instLoop_cons_hit_err copyErr cache_dir sd_mount total e' es idx
            fs fs1 exc hf hc]
          exact List.mem_cons_of_mem _ (ih (idx + 1) fs1 e hmem hfs1 hseptail)

theorem instLoop_success_effect (copyErr : String → Option String)
    (cache_dir sd_mount : String) (total : Nat) :
    ∀ (es : List BiosEntry) (idx : Nat) (fs : FS) (e : BiosEntry) (c : Bytes),
      e ∈ es →
      fs (cache_path_for e cache_dir) = some c →
      (es.flatMap (fun x => installTargets x sd_mount)).Nodup →
      (∀ x ∈ es, ∀ t ∈ installTargets x sd_mount,
        ∀ y ∈ es, t ≠ cache_path_for y cache_dir) →
      (∀ t ∈ installTargets e sd_mount, copyErr t = none) →
      e.filename
          ∈ (instLoop copyErr cache_dir sd_mount total es idx fs).succeeded
      ∧ ∀ t ∈ installTargets e sd_mount,
          (instLoop copyErr cache_dir sd_mount total es idx fs).fs t
            = some c := by
  intro es
  induction es with
  | nil =>
    intro idx fs e c he
    exact absurd he (List.not_mem_nil e)
  | cons e' es ih =>
    intro idx fs e c he hsrc hnd hsep hcp
    have hndparts : (installTargets e' sd_mount).Nodup
        ∧ (es.flatMap (fun x => installTargets x sd_mount)).Nodup
        ∧ (installTargets e' sd_mount).Disjoint
            (es.flatMap (fun x => installTargets x sd_mount)) := by
      rw [List.flatMap_cons, List.nodup_append] at hnd
      exact hnd
    rcases List.mem_cons.mp he with heq | hmem
    · subst heq
      have hf : FS.isFile fs (cache_path_for e cache_dir) = true := by
        simp [FS.isFile, hsrc]
      have hsrcnotin : cache_path_for e cache_dir
          ∉ installTargets e sd_mount :=
        fun hmem' => hsep e (List.mem_cons_self e es) _ hmem' e
          (List.mem_cons_self e es) rfl
      obtain ⟨h1, h2, h3⟩ := installCopies_ok copyErr
        (cache_path_for e cache_dir) c (installTargets e sd_mount) fs hsrc
        hcp hndparts.1 hsrcnotin
      rcases hcpair : installCopies copyErr (cache_path_for e cache_dir)
          (installTargets e sd_mount) fs with ⟨err, fs1⟩
      rw [hcpair] at h1 h2 h3
      simp only at h1 h2 h3
      subst h1
      rw [instLoop_cons_hit_ok copyErr cache_dir sd_mount total e es idx fs
        fs1 hf hcpair]
      refine ⟨List.mem_cons_self _ _, ?_⟩
      intro t ht
      have hframe : (instLoop copyErr cache_dir sd_mount total es (idx + 1)
          fs1).fs t = fs1 t := by
        refine instLoop_frame copyErr cache_dir sd_mount total es (idx + 1)
          fs1 t ?_
        intro x hx hmem'
        exact hndparts.2.2 ht (List.mem_flatMap.mpr ⟨x, hx, hmem'⟩)
      rw [hframe]
      exact h2 t ht
    · have hseptail : ∀ x ∈ es, ∀ t ∈ installTargets x sd_mount,
          ∀ y ∈ es, t ≠ cache_path_for y cache_dir :=
        fun x hx t ht y hy => hsep x (List.mem_cons_of_mem e' hx) t ht y
          (List.mem_cons_of_mem e' hy)
      cases hf : FS.isFile fs (cache_path_for e' cache_dir) with
      | false =>
        rw [instLoop_cons_miss copyErr cache_dir sd_mount total e' es idx fs
          hf]
        exact ih (idx + 1) fs e c hmem hsrc hndparts.2.1 hseptail hcp
      | true =>
        rcases hcpair : installCopies copyErr (cache_path_for e' cache_dir)
            (installTargets e' sd_mount) fs with ⟨err, fs1⟩
        have hsrc1 : fs1 (cache_path_for e cache_dir) = some c := by
          have hfr := installCopies_frame copyErr
            (cache_path_for e' cache_dir) (installTargets e' sd_mount) fs
            (cache_path_for e cache_dir)
            (fun hmem' => hsep e' (List.mem_cons_self e' es) _ hmem' e
              (List.mem_cons_of_mem e' hmem) rfl)
          rw [hcpair] at hfr
          exact hfr.trans hsrc
        have htail := ih (idx + 1) fs1 e c hmem hsrc1 hndparts.2.1 hseptail
          hcp
        cases err with
        | none =>
          rw [instLoop_cons_hit_ok copyErr cache_dir sd_mount total e' es idx
            fs fs1 hf hcpair]
          exact ⟨List.mem_cons_of_mem _ htail.1, htail.2⟩
        | some exc =>
          rw [instLoop_cons_hit_err copyErr cache_dir sd_mount total e' es idx
            fs fs1 exc hf hcpair]
          exact ⟨htail.1, htail.2⟩

theorem instLoop_trace_shape (copyErr : String → Option String)
    (cache_dir sd_mount : String) (total : Nat) :
    ∀ (es : List BiosEntry) (idx : Nat) (fs : FS),
      ∀ x ∈ (instLoop copyErr cache_dir sd_mount total es idx fs).trace,
        ∃ i, idx ≤ i ∧ i < idx + es.length
          ∧ ∃ f, x = (fracOf i total, "Installing: " ++ f) := by
  intro es
  induction es with
  | nil =>
    intro idx fs x hx
    exact absurd hx (List.not_mem_nil x)
  | cons e es ih =>
    intro idx fs x hx
    cases hf : FS.isFile fs (cache_path_for e cache_dir) with
    | false =>
      rw [instLoop_cons_miss copyErr cache_dir sd_mount total e es idx fs hf]
        at hx
      obtain ⟨i, h1, h2, hfx⟩ := ih (idx + 1) fs x hx
      exact ⟨i, by omega, by simp only [List.length_cons]; omega, hfx⟩
    | true =>
      rcases hc : installCopies copyErr (cache_path_for e cache_dir)
          (installTargets e sd_mount) fs with ⟨err, fs1⟩
      cases err with
      | none =>
        rw [instLoop_cons_hit_ok copyErr cache_dir sd_mount total e es idx fs
          fs1 hf hc] at hx
        rcases List.mem_cons.mp hx with heq | hmem
        · exact ⟨idx, Nat.le_refl idx,
            by simp only [List.length_cons]; omega, e.filename, heq⟩
        · obtain ⟨i, h1, h2, hfx⟩ := ih (idx + 1) fs1 x hmem
          exact ⟨i, by omega, by simp only [List.length_cons]; omega, hfx⟩
      | some exc =>
        rw [instLoop_cons_hit_err copyErr cache_dir sd_mount total e es idx fs
          fs1 exc hf hc] at hx
        rcases List.mem_cons.mp hx with heq | hmem
        · exact ⟨idx, Nat.le_refl idx,
            by simp only [List.length_cons]; omega, e.filename, heq⟩
        · obtain ⟨i, h1, h2, hfx⟩ := ih (idx + 1) fs1 x hmem
          exact ⟨i, by omega, by simp only [List.length_cons]; omega, hfx⟩

theorem string_append_cancel (a b c : String) (h : a ++ b = a ++ c) :
    b = c := by
  have hd := congrArg String.data h
  simp only [String.data_append] at hd
  exact String.ext (List.append_cancel_left hd)

theorem relPaths_nodup : (BIOS_FILES.map relPath).Nodup := by decide

theorem cache_paths_nodup (cache_dir : String) (req : Bool) :
    ((biosFilter req).map (fun e => cache_path_for e cache_dir)).Nodup := by
  have h2 : ((biosFilter req).map relPath).Nodup :=
    relPaths_nodup.sublist ((List.filter_sublist BIOS_FILES).map relPath)
  have h3 : (biosFilter req).map (fun e => cache_path_for e cache_dir)
      = ((biosFilter req).map relPath).map
          (fun s => cache_dir ++ "/" ++ s) := by
    rw [List.map_map]
    rfl
  rw [h3]
  exact h2.map (fun x y hxy => string_append_cancel (cache_dir ++ "/") x y hxy)

theorem download_all_bios_eq (digest : Bytes → String)
    (net : String → NetOutcome) (cache_dir : String)
    (skip_cached required_only : Bool) (fs : FS) (r : DlState)
    (hr : dlLoop digest net cache_dir skip_cached
      (biosFilter required_only).length (biosFilter required_only) 0 fs
      = some r) :
    download_all_bios digest net cache_dir skip_cached required_only fs
      = ⟨r.failed.isEmpty, r.succeeded, r.failed, r.fs,
          r.trace ++ [((1 : Rat), "Download complete")], r.requests⟩ := by
  rw [download_all_bios, hr]

/-- C3: in both batch operations every filtered catalog entry is attempted
and contributes exactly one outcome (the two result lists' lengths sum to the
filtered catalog's length, regardless of failures), and the overall-success
boolean is true iff the failed list is empty. -/
theorem c3_batches_best_effort (digest : Bytes → String)
    (net : String → NetOutcome) (cache_dir : String)
    (skip_cached required_only : Bool) (fs : FS)
    (copyErr : String → Option String) (cache_dir2 sd_mount : String)
    (required_only2 : Bool) (fs2 : FS) :
    ((download_all_bios digest net cache_dir skip_cached required_only
        fs).allOk = true
      ↔ (download_all_bios digest net cache_dir skip_cached required_only
        fs).failed = [])
    ∧ (download_all_bios digest net cache_dir skip_cached required_only
          fs).succeeded.length
        + (download_all_bios digest net cache_dir skip_cached required_only
          fs).failed.length
        = (biosFilter required_only).length
    ∧ ((install_bios_to_sd copyErr cache_dir2 sd_mount required_only2
        fs2).allOk = true
      ↔ (install_bios_to_sd copyErr cache_dir2 sd_mount required_only2
        fs2).failed = [])
    ∧ (install_bios_to_sd copyErr cache_dir2 sd_mount required_only2
          fs2).succeeded.length
        + (install_bios_to_sd copyErr cache_dir2 sd_mount required_only2
          fs2).failed.length
        = (biosFilter required_only2).length := by
  obtain ⟨r, hr⟩ := Option.isSome_iff_exists.mp
    (dlLoop_isSome digest net cache_dir skip_cached
      (biosFilter required_only).length (biosFilter required_only) 0 fs)
  rw [download_all_bios_eq digest net cache_dir skip_cached required_only fs
    r hr]
  refine ⟨List.isEmpty_iff, ?_, ?_, ?_⟩
  · exact dlLoop_lengths digest net cache_dir skip_cached
      (biosFilter required_only).length (biosFilter required_only) 0 fs r hr
  · simp only [install_bios_to_sd, instFinish]
    exact List.isEmpty_iff
  · simp only [install_bios_to_sd, instFinish]
    exact instLoop_lengths copyErr cache_dir2 sd_mount
      (biosFilter required_only2).length (biosFilter required_only2) 0 fs2

/-- C10: in both batch operations each filtered entry contributes exactly one
element to exactly one result list — its filename to succeeded or a
"filename: reason" string to failed — in catalog order (both lists arise from
one pass over the filtered catalog), and the list lengths sum to the filtered
catalog's length. -/
theorem c10_partition_in_order (digest : Bytes → String)
    (net : String → NetOutcome) (cache_dir : String)
    (skip_cached required_only : Bool) (fs : FS)
    (copyErr : String → Option String) (cache_dir2 sd_mount : String)
    (required_only2 : Bool) (fs2 : FS) :
    (∃ outs : List (Option String),
      outs.length = (biosFilter required_only).length
      ∧ (download_all_bios digest net cache_dir skip_cached required_only
          fs).succeeded
        = ((biosFilter required_only).zip outs).filterMap
          (fun p => match p.2 with
            | none => some p.1.filename
            | some _ => none)
      ∧ (download_all_bios digest net cache_dir skip_cached required_only
          fs).failed
        = ((biosFilter required_only).zip outs).filterMap
          (fun p => match p.2 with
            | some m => some (p.1.filename ++ ": " ++ m)
            | none => none)
      ∧ (download_all_bios digest net cache_dir skip_cached required_only
            fs).succeeded.length
          + (download_all_bios digest net cache_dir skip_cached required_only
            fs).failed.length
          = (biosFilter required_only).length)
    ∧ (∃ outs : List (Option String),
      outs.length = (biosFilter required_only2).length
      ∧ (install_bios_to_sd copyErr cache_dir2 sd_mount required_only2
          fs2).succeeded
        = ((biosFilter required_only2).zip outs).filterMap
          (fun p => match p.2 with
            | none => some p.1.filename
            | some _ => none)
      ∧ (install_bios_to_sd copyErr cache_dir2 sd_mount required_only2
          fs2).failed
        = ((biosFilter required_only2).zip outs).filterMap
          (fun p => match p.2 with
            | some m => some (p.1.filename ++ ": " ++ m)
            | none => none)
      ∧ (install_bios_to_sd copyErr cache_dir2 sd_mount required_only2
            fs2).succeeded.length
          + (install_bios_to_sd copyErr cache_dir2 sd_mount required_only2
            fs2).failed.length
          = (biosFilter required_only2).length) := by
  obtain ⟨r, hr⟩ := Option.isSome_iff_exists.mp
    (dlLoop_isSome digest net cache_dir skip_cached
      (biosFilter required_only).length (biosFilter required_only) 0 fs)
  constructor
  · rw [download_all_bios_eq digest net cache_dir skip_cached required_only
      fs r hr]
    obtain ⟨outs, hlen, hsucc, hfail⟩ := dlLoop_outcomes digest net cache_dir
      skip_cached (biosFilter required_only).length (biosFilter required_only)
      0 fs r hr
    exact ⟨outs, hlen, hsucc, hfail,
      dlLoop_lengths digest net cache_dir skip_cached
        (biosFilter required_only).length (biosFilter required_only) 0 fs r
        hr⟩
  · simp only [install_bios_to_sd, instFinish]
    obtain ⟨outs, hlen, hsucc, hfail⟩ := instLoop_outcomes copyErr cache_dir2
      sd_mount (biosFilter required_only2).length (biosFilter required_only2)
      0 fs2
    exact ⟨outs, hlen, hsucc, hfail,
      instLoop_lengths copyErr cache_dir2 sd_mount
        (biosFilter required_only2).length (biosFilter required_only2) 0 fs2⟩

/-- C7: `install_bios_to_sd` never fetches: an entry whose resolved cache
file is absent fails with the distinct "not in cache" tag (provided no
install target aliases that cache path), and against an empty cache the
whole run yields an empty succeeded list and a failed list tagging every
filtered entry. -/
theorem c7_install_not_in_cache (copyErr : String → Option String)
    (cache_dir sd_mount : String) (required_only : Bool) (fs : FS)
    (e : BiosEntry) (he : e ∈ biosFilter required_only)
    (hnone : fs (cache_path_for e cache_dir) = none)
    (hsep : ∀ e' ∈ biosFilter required_only,
      ∀ t ∈ installTargets e' sd_mount, t ≠ cache_path_for e cache_dir) :
    ((e.filename ++ ": not in cache")
      ∈ (install_bios_to_sd copyErr cache_dir sd_mount required_only
        fs).failed)
    ∧ (install_bios_to_sd copyErr cache_dir sd_mount required_only
        emptyFS).succeeded = []
    ∧ (install_bios_to_sd copyErr cache_dir sd_mount required_only
        emptyFS).failed
      = (biosFilter required_only).map
          (fun x => x.filename ++ ": not in cache") := by
  refine ⟨?_, ?_, ?_⟩
  · simp only [install_bios_to_sd, instFinish]
    exact instLoop_missing_tag copyErr cache_dir sd_mount
      (biosFilter required_only).length (biosFilter required_only) 0 fs e he
      hnone hsep
  · simp only [install_bios_to_sd, instFinish]
    rw [instLoop_empty_cache copyErr cache_dir sd_mount
      (biosFilter required_only).length (biosFilter required_only) 0 emptyFS
      (fun x _ => rfl)]
  · simp only [install_bios_to_sd, instFinish]
    rw [instLoop_empty_cache copyErr cache_dir sd_mount
      (biosFilter required_only).length (biosFilter required_only) 0 emptyFS
      (fun x _ => rfl)]

/-- C7 witness: the first catalog entry against an empty cache. -/
theorem c7_install_not_in_cache_witness :
    (("scph1001.bin" ++ ": not in cache")
      ∈ (install_bios_to_sd (fun _ => none) "c" "s" false emptyFS).failed)
    ∧ (install_bios_to_sd (fun _ => none) "c" "s" false emptyFS).succeeded
        = []
    ∧ (install_bios_to_sd (fun _ => none) "c" "s" false emptyFS).failed
      = (biosFilter false).map (fun x => x.filename ++ ": not in cache") := by
  have h := c7_install_not_in_cache (fun _ => none) "c" "s" false emptyFS
    { filename := "scph1001.bin", system := "PlayStation",
      md5 := "924e392ed05558ffdb115408c263dccf", required := true,
      subdir := "", extra_copies := [], notes := "PS1 BIOS (North America)" }
    (by decide) rfl (by decide)
  exact h

/-- C8: installing an entry with N extra-copy targets whose cached file
exists copies the cached contents to N+1 destination paths — the primary
`sd_mount/BIOS/[subdir/]filename` plus one per extra-copy target — all
byte-identical to the cached source (under no aliasing between install
targets and cache paths, which holds for the concrete catalog and distinct
roots). -/
theorem c8_fanout_install (copyErr : String → Option String)
    (cache_dir sd_mount : String) (required_only : Bool) (fs : FS)
    (e : BiosEntry) (c : Bytes)
    (he : e ∈ biosFilter required_only)
    (hsrc : fs (cache_path_for e cache_dir) = some c)
    (hnd : ((biosFilter required_only).flatMap
      (fun x => installTargets x sd_mount)).Nodup)
    (hsep : ∀ x ∈ biosFilter required_only,
      ∀ t ∈ installTargets x sd_mount,
      ∀ y ∈ biosFilter required_only, t ≠ cache_path_for y cache_dir)
    (hcp : ∀ t ∈ installTargets e sd_mount, copyErr t = none) :
    (installTargets e sd_mount).length = e.extra_copies.length + 1
    ∧ e.filename ∈ (install_bios_to_sd copyErr cache_dir sd_mount
        required_only fs).succeeded
    ∧ ∀ t ∈ installTargets e sd_mount,
        (install_bios_to_sd copyErr cache_dir sd_mount required_only fs).fs t
          = some c := by
  have hmain := instLoop_success_effect copyErr cache_dir sd_mount
    (biosFilter required_only).length (biosFilter required_only) 0 fs e c he
    hsrc hnd hsep hcp
  refine ⟨?_, ?_, ?_⟩
  · simp [installTargets]
  · simp only [install_bios_to_sd, instFinish]
    exact hmain.1
  · simp only [install_bios_to_sd, instFinish]
    exact hmain.2

/-- C8 witness: the Neo Geo BIOS entry (one extra-copy target) yields two
identical destination copies. -/
theorem c8_fanout_install_witness :
    (installTargets
      { filename := "neogeo.zip", system := "Neo Geo",
        md5 := "", required := true,
        subdir := "", extra_copies := ["Roms/NEOGEO/neogeo.zip"],
        notes := "Neo Geo BIOS (also needed in Roms/NEOGEO/)" } "s").length
      = 2
    ∧ "neogeo.zip" ∈ (install_bios_to_sd (fun _ => none) "c" "s" false
        (FS.ofList [("c/neogeo.zip", [1, 2, 3])])).succeeded
    ∧ ∀ t ∈ ["s/BIOS/neogeo.zip", "s/Roms/NEOGEO/neogeo.zip"],
        (install_bios_to_sd (fun _ => none) "c" "s" false
          (FS.ofList [("c/neogeo.zip", [1, 2, 3])])).fs t = some [1, 2, 3]
    := by
  have h := c8_fanout_install (fun _ => none) "c" "s" false
    (FS.ofList [("c/neogeo.zip", [1, 2, 3])])
    { filename := "neogeo.zip", system := "Neo Geo",
      md5 := "", required := true,
      subdir := "", extra_copies := ["Roms/NEOGEO/neogeo.zip"],
      notes := "Neo Geo BIOS (also needed in Roms/NEOGEO/)" } [1, 2, 3]
    (by decide) rfl (by decide) (by decide) (fun t _ => rfl)
  exact ⟨h.1, h.2.1, h.2.2⟩

/-- C2: if a `download_all_bios` run with `skip_cached = true` fully
succeeds, a second run over the resulting cache issues zero network requests
(whatever the network would answer), marks every entry succeeded by the
cache check alone, returns the same succeeded list as the first run, and
again reports overall success. -/
theorem c2_skip_cached_idempotent (digest : Bytes → String)
    (net1 net2 : String → NetOutcome) (cache_dir : String)
    (required_only : Bool) (fs : FS)
    (h1 : (download_all_bios digest net1 cache_dir true required_only
      fs).allOk = true) :
    (download_all_bios digest net2 cache_dir true required_only
        (download_all_bios digest net1 cache_dir true required_only
          fs).fs).requests = []
    ∧ (download_all_bios digest net2 cache_dir true required_only
        (download_all_bios digest net1 cache_dir true required_only
          fs).fs).succeeded
      = (download_all_bios digest net1 cache_dir true required_only
          fs).succeeded
    ∧ (download_all_bios digest net2 cache_dir true required_only
        (download_all_bios digest net1 cache_dir true required_only
          fs).fs).allOk = true := by
  obtain ⟨r1, hr1⟩ := Option.isSome_iff_exists.mp
    (dlLoop_isSome digest net1 cache_dir true
      (biosFilter required_only).length (biosFilter required_only) 0 fs)
  rw [download_all_bios_eq digest net1 cache_dir true required_only fs r1
    hr1] at h1 ⊢
  have hfail1 : r1.failed = [] := List.isEmpty_iff.mp h1
  have hver := dlLoop_verified digest net1 cache_dir true
    (biosFilter required_only).length (biosFilter required_only) 0 fs r1
    (cache_paths_nodup cache_dir required_only) hr1 hfail1
  obtain ⟨r2, hr2, hsucc2, hfail2, hfs2, hreq2⟩ :=
    dlLoop_skipAll digest net2 cache_dir (biosFilter required_only).length
      (biosFilter required_only) 0 r1.fs hver
  rw [download_all_bios_eq digest net2 cache_dir true required_only r1.fs r2
    hr2]
  refine ⟨hreq2, ?_, ?_⟩
  · rw [hsucc2]
    exact (dlLoop_succ_all digest net1 cache_dir true
      (biosFilter required_only).length (biosFilter required_only) 0 fs r1
      hr1 hfail1).symm
  · rw [hfail2]
    rfl

/-- C2 witness: a fully cached run succeeds offline, and the second run
issues no requests and reproduces the succeeded list. -/
theorem c2_skip_cached_idempotent_witness :
    (download_all_bios bytesDigest
        (fun _ => NetOutcome.connectUrlError "offline") "cache" true false
        fullCacheFS).allOk = true
    ∧ (download_all_bios bytesDigest
        (fun _ => NetOutcome.connectUrlError "offline") "cache" true false
        (download_all_bios bytesDigest
          (fun _ => NetOutcome.connectUrlError "offline") "cache" true false
          fullCacheFS).fs).requests = []
    ∧ (download_all_bios bytesDigest
        (fun _ => NetOutcome.connectUrlError "offline") "cache" true false
        (download_all_bios bytesDigest
          (fun _ => NetOutcome.connectUrlError "offline") "cache" true false
          fullCacheFS).fs).succeeded
      = (download_all_bios bytesDigest
          (fun _ => NetOutcome.connectUrlError "offline") "cache" true false
          fullCacheFS).succeeded
    ∧ (download_all_bios bytesDigest
        (fun _ => NetOutcome.connectUrlError "offline") "cache" true false
        (download_all_bios bytesDigest
          (fun _ => NetOutcome.connectUrlError "offline") "cache" true false
          fullCacheFS).fs).allOk = true := by
  have h1 : (download_all_bios bytesDigest
      (fun _ => NetOutcome.connectUrlError "offline") "cache" true false
      fullCacheFS).allOk = true := by decide
  have h := c2_skip_cached_idempotent bytesDigest
    (fun _ => NetOutcome.connectUrlError "offline")
    (fun _ => NetOutcome.connectUrlError "offline") "cache" false fullCacheFS
    h1
  exact ⟨h1, h.1, h.2.1, h.2.2⟩

/-- C5 (amended): with a callback supplied, `download_all_bios` invokes it
exactly once per filtered item, before processing it, with fraction
`idx / max(total, 1)` where `idx` counts prior items, and once after the
whole run with fraction 1 — so the fraction sequence is
`0/total, 1/total, …, (total-1)/total, 1`, bookending a nonempty run by 0
and 1.  `install_bios_to_sd` invokes the callback per item only for items
found in cache (each with fraction `idx / max(total, 1)` and an
"Installing: " status), and always ends with a final invocation with
fraction 1; it begins with fraction 0 only if the first entry is attempted. -/
theorem c5_progress_fractions (digest : Bytes → String)
    (net : String → NetOutcome) (cache_dir : String)
    (skip_cached required_only : Bool) (fs : FS)
    (copyErr : String → Option String) (cache_dir2 sd_mount : String)
    (required_only2 : Bool) (fs2 : FS) :
    (download_all_bios digest net cache_dir skip_cached required_only
        fs).trace.map Prod.fst
      = (List.range (biosFilter required_only).length).map
          (fun i => fracOf i (biosFilter required_only).length)
        ++ [(1 : Rat)]
    ∧ (install_bios_to_sd copyErr cache_dir2 sd_mount required_only2
        fs2).trace.getLast? = some ((1 : Rat), "Installation complete")
    ∧ ∀ x ∈ (install_bios_to_sd copyErr cache_dir2 sd_mount required_only2
        fs2).trace.dropLast,
        ∃ i, i < (biosFilter required_only2).length
          ∧ ∃ f, x = (fracOf i (biosFilter required_only2).length,
              "Installing: " ++ f) := by
  obtain ⟨r, hr⟩ := Option.isSome_iff_exists.mp
    (dlLoop_isSome digest net cache_dir skip_cached
      (biosFilter required_only).length (biosFilter required_only) 0 fs)
  refine ⟨?_, ?_, ?_⟩
  · rw [download_all_bios_eq digest net cache_dir skip_cached required_only
      fs r hr]
    show (r.trace ++ [((1 : Rat), "Download complete")]).map Prod.fst = _
    rw [List.map_append,
      dlLoop_trace digest net cache_dir skip_cached
        (biosFilter required_only).length (biosFilter required_only) 0 fs r
        hr,
      List.range_eq_range']
    rfl
  · simp only [install_bios_to_sd, instFinish]
    exact List.getLast?_concat _
  · simp only [install_bios_to_sd, instFinish]
    intro x hx
    rw [List.dropLast_concat] at hx
    obtain ⟨i, h0, hlt, f, hfx⟩ := instLoop_trace_shape copyErr cache_dir2
      sd_mount (biosFilter required_only2).length (biosFilter required_only2)
      0 fs2 x hx
    exact ⟨i, by omega, f, hfx⟩

/-- C5 counterexample: an install run over an empty cache (15 filtered
items) makes no per-item invocation at all; its only invocation has
fraction 1, so the run is not bookended by a fraction-0 invocation and no
item has before/after invocations. -/
theorem c5_progress_cex :
    (install_bios_to_sd (fun _ => none) "c" "s" false emptyFS).trace
      = [((1 : Rat), "Installation complete")]
    ∧ (biosFilter false).length = 15
    ∧ ¬ ∃ x ∈ (install_bios_to_sd (fun _ => none) "c" "s" false
        emptyFS).trace, x.1 = 0 := by
  have htr : (install_bios_to_sd (fun _ => none) "c" "s" false emptyFS).trace
      = [((1 : Rat), "Installation complete")] := by
    simp only [install_bios_to_sd, instFinish]
    rw [instLoop_empty_cache (fun _ => none) "c" "s"
      (biosFilter false).length (biosFilter false) 0 emptyFS
      (fun x _ => rfl)]
    rfl
  refine ⟨htr, rfl, ?_⟩
  rw [htr]
  rintro ⟨x, hx, hx0⟩
  simp only [List.mem_singleton] at hx
  subst hx
  exact one_ne_zero hx0
